import Mathlib

/-!
Verification of the JvavSprict interpreter (src/sources/jvs.py) against its
natural-language specification.  The Python interpreter is shallowly embedded:
the interpreter state (variable scope, function table, printed output, error
reports) is an explicit record, every handler is a Lean function mirroring the
corresponding Python method, and the mutually recursive statement dispatcher is
driven by a fuel parameter (the Python recursion is unbounded; fuel exhaustion
simply stops, and every concrete run below is given ample fuel).
-/

namespace JvavSprict

/-- The opening curly brace character, written via its code point. -/
def openBrace : Char := Char.ofNat 123

/-- The closing curly brace character, written via its code point. -/
def closeBrace : Char := Char.ofNat 125

/-- The single-quote character. -/
def squote : Char := Char.ofNat 39

/-- The double-quote character. -/
def dquote : Char := Char.ofNat 34

/-- Python regex word character, ASCII fragment: letters, digits, underscore. -/
def isWordChar (c : Char) : Bool := c.isAlphanum || c = '_'

/-- Whitespace as recognised by Python `str.strip` (ASCII fragment). -/
def isSpace (c : Char) : Bool :=
  c = ' ' || c = '\t' || c = '\n' || c = '\r' || c = Char.ofNat 11 || c = Char.ofNat 12

/-- Strip whitespace from both ends of a character list (Python `str.strip`). -/
def trimChars (cs : List Char) : List Char :=
  ((cs.dropWhile isSpace).reverse.dropWhile isSpace).reverse

/-- Python `str.strip()` on strings. -/
def strTrim (s : String) : String := String.mk (trimChars s.data)

/-- Python `str.startswith`. -/
def strStartsWith (s p : String) : Bool := p.data.isPrefixOf s.data

/-- Strip every leading and trailing occurrence of one character
(Python `str.strip` with an explicit character argument). -/
def stripChar (c : Char) (s : String) : String :=
  String.mk (((s.data.dropWhile (· = c)).reverse.dropWhile (· = c)).reverse)

/-- Split a character list at every occurrence of a separator character
(Python `str.split` with a one-character separator: an empty input yields
one empty field). -/
def splitOnChar (sep : Char) : List Char → List (List Char)
  | [] => [[]]
  | c :: rest =>
    if c = sep then [] :: splitOnChar sep rest
    else
      match splitOnChar sep rest with
      | h :: t => (c :: h) :: t
      | [] => [[c]]

/-- Python `code.split("\n")`. -/
def splitLines (code : String) : List String :=
  (splitOnChar '\n' code.data).map String.mk

/-- The characters strictly before the last occurrence of `c`,
or `none` when `c` does not occur (the greedy-regex tail match). -/
def takeToLast (c : Char) : List Char → Option (List Char)
  | [] => Option.none
  | x :: rest =>
    match takeToLast c rest with
    | some inner => some (x :: inner)
    | Option.none => if x = c then some [] else Option.none

/-- One step of Python `str.replace`: fuelled by the input length so the
recursion is structural; replaces every non-overlapping occurrence of `pat`
left to right. -/
def replaceAllAux (pat sub : List Char) : Nat → List Char → List Char
  | 0, cs => cs
  | n + 1, cs =>
    match cs with
    | [] => []
    | c :: rest =>
      if pat ≠ [] ∧ pat.isPrefixOf cs then sub ++ replaceAllAux pat sub n (cs.drop pat.length)
      else c :: replaceAllAux pat sub n rest

/-- Python `str.replace(pat, sub)` (replace all occurrences). -/
def replaceAll (cs pat sub : List Char) : List Char := replaceAllAux pat sub cs.length cs

/-- Dynamically typed runtime value (Python object produced by `eval`). -/
inductive Value where
  | int : Int → Value
  | str : String → Value
  | bool : Bool → Value
  | none : Value
deriving Repr, DecidableEq

/-- Python `str()` of a runtime value. -/
def valueStr : Value → String
  | Value.int n => toString n
  | Value.str s => s
  | Value.bool b => if b then "True" else "False"
  | Value.none => "None"

/-- The exception kinds the interpreter raises or catches. -/
inductive Exc where
  | syntaxError : String → Exc
  | nameError : String → Exc
  | valueError : String → Exc
  | keyError : String → Exc
  | evalError : String → Exc
deriving Repr, DecidableEq

/-- One diagnostic printed by `print_exception_trace`:
the 0-based line index (−1 when unknown), the line context, the exception. -/
structure Report where
  lineNumber : Int
  line : String
  exc : Exc
deriving Repr, DecidableEq

/-- The interpreter state: the live variable scope and the function table
(both Python dicts, insertion ordered), the lines printed so far, and the
diagnostics emitted so far. -/
structure InterpState where
  /-- `self.variables` in the source (the name `variables` is a Lean keyword). -/
  vars : List (String × Value)
  functions : List (String × (List String × List String))
  output : List String
  reports : List Report
deriving Repr, DecidableEq

/-- The empty initial state. -/
def initState : InterpState := ⟨[], [], [], []⟩

/-- Python dict lookup on an insertion-ordered association list. -/
def dictGet {α : Type} : List (String × α) → String → Option α
  | [], _ => Option.none
  | (k, v) :: rest, n => if k = n then some v else dictGet rest n

/-- Python dict assignment: update in place when the key exists,
append otherwise. -/
def dictSet {α : Type} : List (String × α) → String → α → List (String × α)
  | [], k, v => [(k, v)]
  | (k', v') :: rest, k, v =>
    if k' = k then (k', v) :: rest else (k', v') :: dictSet rest k v

/-- Match of `var\s+(\w+)\s*=\s*(.*)` against a (stripped) line:
yields the identifier and the right-hand expression text. -/
def parseVarDecl (line : String) : Option (String × String) :=
  match line.data with
  | 'v' :: 'a' :: 'r' :: rest =>
    if rest.takeWhile isSpace = [] then Option.none
    else
      let r2 := rest.dropWhile isSpace
      let name := r2.takeWhile isWordChar
      if name = [] then Option.none
      else
        match (r2.dropWhile isWordChar).dropWhile isSpace with
        | '=' :: r5 => some (String.mk name, String.mk (r5.dropWhile isSpace))
        | _ => Option.none
  | _ => Option.none

/-- The parameter-list scan of `func\s+(\w+)\((.*?)\)\s*\{`: the characters up
to the first closing parenthesis that is followed by optional whitespace and
an opening brace. -/
def scanParams : List Char → Option (List Char)
  | [] => Option.none
  | c :: rest =>
    if c = ')' ∧ ((rest.dropWhile isSpace).head? = some openBrace) then some []
    else (scanParams rest).map (c :: ·)

/-- Match of `func\s+(\w+)\((.*?)\)\s*\{` against a (stripped) line:
yields the function name and the raw parameter-list text. -/
def parseFuncDef (line : String) : Option (String × String) :=
  match line.data with
  | 'f' :: 'u' :: 'n' :: 'c' :: rest =>
    if rest.takeWhile isSpace = [] then Option.none
    else
      let r2 := rest.dropWhile isSpace
      let name := r2.takeWhile isWordChar
      if name = [] then Option.none
      else
        match r2.dropWhile isWordChar with
        | '(' :: tl => (scanParams tl).map (fun ps => (String.mk name, String.mk ps))
        | _ => Option.none
  | _ => Option.none

/-- Match of `(\w+)\((.*)\)` against a (stripped) line: the identifier, and the
text between the opening parenthesis and the last closing parenthesis. -/
def parseCall (line : String) : Option (String × String) :=
  let name := line.data.takeWhile isWordChar
  if name = [] then Option.none
  else
    match line.data.dropWhile isWordChar with
    | '(' :: tl => (takeToLast ')' tl).map (fun args => (String.mk name, String.mk args))
    | _ => Option.none

/-- Match of `log\((.+)\)`: the non-empty text between `log(` and the last
closing parenthesis. -/
def parseLog (line : String) : Option String :=
  match line.data with
  | 'l' :: 'o' :: 'g' :: '(' :: tl =>
    match takeToLast ')' tl with
    | some content => if content = [] then Option.none else some (String.mk content)
    | Option.none => Option.none
  | _ => Option.none

/-- The dispatcher test `re.match(r".*\(.*\)", line)`: an opening parenthesis
with a closing parenthesis somewhere after it. -/
def hasCallPattern (line : String) : Bool :=
  match line.data.dropWhile (· ≠ '(') with
  | [] => false
  | _ :: tl => tl.contains ')'

/-- The Python comprehension `[a.strip() for a in s.split(",") if a.strip()]`
used for both parameter lists and argument lists. -/
def split_args (s : String) : List String :=
  ((splitOnChar ',' s.data).map (fun cs => String.mk (trimChars cs))).filter (· ≠ "")

/-- A run of one or more decimal digits, as a number. -/
def parseDigits (cs : List Char) : Option Nat :=
  if cs ≠ [] ∧ cs.all Char.isDigit then
    some (cs.foldl (fun n c => 10 * n + (c.toNat - 48)) 0)
  else Option.none

/-- An optionally negated decimal integer literal. -/
def parseIntChars : List Char → Option Int
  | '-' :: rest => (parseDigits rest).map (fun n => -(n : Int))
  | cs => (parseDigits cs).map (fun n => (n : Int))

/-- A quoted string literal: matching single or double quotes around text that
contains no quote of the same kind. -/
def parseQuoted (cs : List Char) : Option String :=
  match cs with
  | q :: rest =>
    if (q = squote ∨ q = dquote) ∧ rest ≠ [] ∧ rest.getLast? = some q
        ∧ ¬ (rest.dropLast.contains q) then
      some (String.mk rest.dropLast)
    else Option.none
  | [] => Option.none

/-- Apply one arithmetic operator character to two integers. -/
def applyOp (c : Char) (a b : Int) : Int :=
  if c = '+' then a + b else if c = '-' then a - b else a * b

/-- Scan for an operator split position: the accumulator holds the characters
already passed, reversed. -/
def findBinop (accRev : List Char) : List Char → Option Value
  | [] => Option.none
  | c :: rest =>
    if (c = '+' ∨ c = '-' ∨ c = '*') ∧ accRev ≠ [] then
      match parseIntChars (trimChars accRev.reverse), parseIntChars (trimChars rest) with
      | some a, some b => some (Value.int (applyOp c a b))
      | _, _ => findBinop (c :: accRev) rest
    else findBinop (c :: accRev) rest

/-- Host expression evaluation: the Python builtin `eval` applied to the
substituted expression text, modelled on the decidable fragment the language
exercises — integer literals, `True`/`False`, quoted string literals, and a
single binary `+`/`-`/`*` between integer literals.  Any other text fails
(`eval` raising), yielding `Option.none`. -/
def pyEval (expr : String) : Option Value :=
  let s := trimChars expr.data
  match parseIntChars s with
  | some n => some (Value.int n)
  | Option.none =>
    if s = "True".data then some (Value.bool true)
    else if s = "False".data then some (Value.bool false)
    else
      match parseQuoted s with
      | some str => some (Value.str str)
      | Option.none => findBinop [] s

/-- The substitution loop of `evaluate_expression`: for every bound variable,
in insertion order, textually replace its name by the string form of its
value. -/
def substitute_vars (vars : List (String × Value)) (expr : String) : String :=
  vars.foldl (fun e kv => String.mk (replaceAll e.data kv.1.data (valueStr kv.2).data)) expr

/-- `evaluate_expression`: substitute the scope into the text, evaluate with
the host evaluator; on failure report the (substituted) expression and yield
Python `None`.  This function never raises. -/
def evaluate_expression (st : InterpState) (expr : String) : InterpState × Value :=
  let subst := substitute_vars st.vars expr
  match pyEval subst with
  | some v => (st, v)
  | Option.none =>
    ({st with reports := st.reports ++ [⟨-1, subst, Exc.evalError subst⟩]}, Value.none)

/-- `handle_variable_declaration`: on a pattern match, bind the evaluated
expression; on a mismatch, report (line context −1) and re-raise the
SyntaxError, exactly as the Python handler's `except` clause does. -/
def handle_variable_declaration (st : InterpState) (line : String) :
    InterpState × Option Exc :=
  match parseVarDecl line with
  | some (name, expr) =>
    let r := evaluate_expression st expr
    ({r.1 with vars := dictSet r.1.vars name r.2}, Option.none)
  | Option.none =>
    let e := Exc.syntaxError ("Variable declaration syntax error: " ++ line)
    ({st with reports := st.reports ++ [⟨-1, line, e⟩]}, some e)

/-- `handle_log`: print the bound variable's value, else the content with all
surrounding double quotes stripped and then all surrounding single quotes
stripped; a pattern mismatch prints an inline message and never raises. -/
def handle_log (st : InterpState) (line : String) : InterpState :=
  match parseLog line with
  | some content0 =>
    let content := strTrim content0
    match dictGet st.vars content with
    | some v => {st with output := st.output ++ [valueStr v]}
    | Option.none =>
      {st with output := st.output ++ [stripChar squote (stripChar dquote content)]}
  | Option.none =>
    {st with output := st.output ++ ["log() Grammatical errors: " ++ line]}

/-- The body-extraction loop of `handle_function_definition`: walks the lines
after the header with a brace counter starting at 1, collecting stripped body
lines; returns the body and the absolute index of the terminating line (or of
the end of input when the braces never balance). -/
def extract_body : List String → Nat → Nat → List String × Nat
  | [], i, _ => ([], i)
  | l :: rest, i, bc =>
    let line := strTrim l
    let bc1 := if line.data.contains openBrace then bc + 1 else bc
    if line.data.contains closeBrace then
      if bc1 - 1 = 0 then ([], i)
      else
        let r := extract_body rest (i + 1) (bc1 - 1)
        (line :: r.1, r.2)
    else
      let r := extract_body rest (i + 1) bc1
      (line :: r.1, r.2)

/-- `handle_function_definition`: parse the header, extract the body by brace
counting, register the function, and return the index of the terminating
line; a malformed header raises a SyntaxError. -/
def handle_function_definition (st : InterpState) (lines : List String) (start : Nat) :
    InterpState × Option Exc × Nat :=
  match parseFuncDef (strTrim (lines.getD start "")) with
  | some (name, paramsStr) =>
    let params := split_args paramsStr
    let r := extract_body (lines.drop (start + 1)) (start + 1) 1
    ({st with functions := dictSet st.functions name (params, r.1)}, Option.none, r.2)
  | Option.none =>
    (st, some (Exc.syntaxError ("Function definition syntax error: " ++ lines.getD start "")),
      start)

/-- The parameter-binding loop of `call_function`: each argument expression is
evaluated in the current (caller's, progressively extended) scope and bound
to its parameter. -/
def bindParams : InterpState → List String → List String → InterpState
  | st, p :: ps, a :: rest =>
    let r := evaluate_expression st a
    bindParams {r.1 with vars := dictSet r.1.vars p r.2} ps rest
  | st, _, _ => st

/-- `call_function`, parameterised by the recursive statement processor used
for the body: look the callee up, check arity (mismatch raises a ValueError),
back up the scope, bind parameters, run the body, restore the scope. -/
def call_function_aux (pl : InterpState → List String → Nat → InterpState)
    (st : InterpState) (name : String) (args : List String) : InterpState × Option Exc :=
  match dictGet st.functions name with
  | Option.none => (st, some (Exc.keyError name))
  | some (params, body) =>
    if args.length ≠ params.length then
      (st, some (Exc.valueError ("The number of parameters does not match: " ++ name)))
    else
      let backup := st.vars
      let st1 := bindParams st params args
      let st2 := pl st1 body 0
      ({st2 with vars := backup}, Option.none)

/-- `handle_function_call`, parameterised by the recursive statement
processor: parse the call, raise a NameError for an unknown callee, else
dispatch through `call_function_aux`. -/
def handle_function_call_aux (pl : InterpState → List String → Nat → InterpState)
    (st : InterpState) (line : String) : InterpState × Option Exc :=
  match parseCall line with
  | some (name, argsStr) =>
    let args := split_args argsStr
    if (dictGet st.functions name).isSome then call_function_aux pl st name args
    else (st, some (Exc.nameError ("Unknown function: " ++ name)))
  | Option.none => (st, some (Exc.syntaxError ("Function call syntax ERROR: " ++ line)))

/-- The body of one iteration of the `process_lines` loop (the `try` block):
classify the stripped current line and run its handler, yielding the new
state, the exception the handler raised (if any), and the next line index. -/
def dispatch_line_aux (pl : InterpState → List String → Nat → InterpState)
    (st : InterpState) (lines : List String) (i : Nat) : InterpState × Option Exc × Nat :=
  let line := strTrim (lines.getD i "")
  if line = "" ∨ strStartsWith line "//" = true then (st, Option.none, i + 1)
  else if strStartsWith line "var " = true then
    let r := handle_variable_declaration st line
    (r.1, r.2, i + 1)
  else if strStartsWith line "func " = true then
    let r := handle_function_definition st lines i
    (r.1, r.2.1, r.2.2 + 1)
  else if strStartsWith line "log(" = true then (handle_log st line, Option.none, i + 1)
  else if hasCallPattern line = true then
    let r := handle_function_call_aux pl st line
    (r.1, r.2, i + 1)
  else (st, some (Exc.syntaxError ("Unknown statement: " ++ line)), i + 1)

/-- `process_lines`: the statement dispatcher.  Each loop iteration runs one
line; an exception from the line's handler is reported (line index, stripped
line text) and the remainder of the sequence is abandoned (`break`).  The
fuel bounds the recursion depth; at fuel 0 processing stops silently. -/
def process_lines : Nat → InterpState → List String → Nat → InterpState
  | 0, st, _, _ => st
  | fuel + 1, st, lines, i =>
    if i < lines.length then
      match dispatch_line_aux (fun st2 ls j => process_lines fuel st2 ls j) st lines i with
      | (st', Option.none, j) => process_lines fuel st' lines j
      | (st', some e, _) =>
        {st' with reports := st'.reports ++ [⟨(i : Int), strTrim (lines.getD i ""), e⟩]}
    else st

/-- `dispatch_line` at a given fuel. -/
def dispatch_line (fuel : Nat) : InterpState → List String → Nat → InterpState × Option Exc × Nat :=
  dispatch_line_aux (fun st2 ls j => process_lines fuel st2 ls j)

/-- `handle_function_call` at a given fuel. -/
def handle_function_call (fuel : Nat) : InterpState → String → InterpState × Option Exc :=
  handle_function_call_aux (fun st2 ls j => process_lines fuel st2 ls j)

/-- `call_function` at a given fuel. -/
def call_function (fuel : Nat) : InterpState → String → List String → InterpState × Option Exc :=
  call_function_aux (fun st2 ls j => process_lines fuel st2 ls j)

/-- `execute`: split the program into lines, run the top-level scan, then --
when a function named `main` is registered -- print the banner and invoke it
with zero arguments; an exception escaping that call is reported with the
generic context line. -/
def execute (fuel : Nat) (code : String) : InterpState :=
  let st1 := process_lines fuel initState (splitLines code) 0
  match dictGet st1.functions "main" with
  | Option.none => st1
  | some _ =>
    let st2 := {st1 with output := st1.output ++ ["Locate the main function and start executing\n"]}
    match call_function fuel st2 "main" [] with
    | (st3, Option.none) => st3
    | (st3, some e) =>
      {st3 with reports := st3.reports ++ [⟨-1, "Exceptions to code execution", e⟩]}

/-! ## Unfolding lemmas -/

/-- One step of the dispatcher loop, phrased through `dispatch_line`. -/
theorem process_lines_step (fuel : Nat) (st : InterpState) (lines : List String) (i : Nat)
    (hi : i < lines.length) :
    process_lines (fuel + 1) st lines i =
      match dispatch_line fuel st lines i with
      | (st', Option.none, j) => process_lines fuel st' lines j
      | (st', some e, _) =>
        {st' with reports := st'.reports ++ [⟨(i : Int), strTrim (lines.getD i ""), e⟩]} := by
  simp only [process_lines, dispatch_line, hi, if_true]

/-! ## Claim C1 -/

/-- C1: for every dispatched function call (the callee exists and the arity
check passes), after the call returns — whether the body completed normally
or a fault inside the body was caught by the inner dispatcher — the variable
scope equals the scope observed immediately before the call. -/
theorem call_restores_caller_scope (fuel : Nat) (st : InterpState) (name : String)
    (args : List String) (params body : List String)
    (hf : dictGet st.functions name = some (params, body))
    (ha : args.length = params.length) :
    (call_function fuel st name args).1.vars = st.vars := by
  simp [call_function, call_function_aux, hf, ha]

/-- Witness for C1 at a concrete call whose body mutates the scope. -/
theorem call_restores_caller_scope_witness :
    (call_function 10 ⟨[("x", Value.int 1)], [("f", ([], ["var y = 2"]))], [], []⟩
        "f" []).1.vars = [("x", Value.int 1)] :=
  call_restores_caller_scope 10 ⟨[("x", Value.int 1)], [("f", ([], ["var y = 2"]))], [], []⟩
    "f" [] [] ["var y = 2"] rfl rfl

/-! ## Claim C2 -/

/-- C2 counterexample: a statement inside the body of `f` (called from `main`)
faults, yet exactly one diagnostic is produced (the innermost dispatch level's),
and the enclosing level does not abort: the `log` after the failed call still
prints.  The claim predicts a diagnostic per enclosing level and an aborted
remainder at every level. -/
theorem nested_fault_single_report :
    (execute 50 "func f() \x7b\noops\n\x7d\nfunc main() \x7b\nf()\nlog(\"after\")\n\x7d").reports.length = 1
    ∧ (execute 50 "func f() \x7b\noops\n\x7d\nfunc main() \x7b\nf()\nlog(\"after\")\n\x7d").output
        = ["Locate the main function and start executing\n", "after"] := by
  constructor
  · decide
  · decide

/-- C2 amended: a failure inside a nested call body is caught at the dispatch
level inside the call, which reports it once and aborts only the body's own
remainder; the call itself returns normally — no exception propagates to the
enclosing dispatch levels, so they neither catch, nor report again, nor abort
their own remainders. -/
theorem dispatched_call_never_raises (fuel : Nat) (st : InterpState) (name : String)
    (args : List String) (params body : List String)
    (hf : dictGet st.functions name = some (params, body))
    (ha : args.length = params.length) :
    (call_function fuel st name args).2 = Option.none := by
  simp [call_function, call_function_aux, hf, ha]

/-- Witness for the amended C2: a call whose body faults still returns without
an exception. -/
theorem dispatched_call_never_raises_witness :
    (call_function 10 ⟨[], [("g", ([], ["oops"]))], [], []⟩ "g" []).2 = Option.none :=
  dispatched_call_never_raises 10 ⟨[], [("g", ([], ["oops"]))], [], []⟩ "g" [] [] ["oops"]
    rfl rfl

/-! ## Claim C4 -/

/-- C4: a call to a registered function with a wrong argument count fails with
a ValueError naming the function, and the whole interpreter state — in
particular the caller's variable scope — is returned unchanged: no parameter
is bound and no body line executes. -/
theorem arity_mismatch_leaves_state_unchanged (fuel : Nat) (st : InterpState)
    (name : String) (args : List String) (params body : List String)
    (hf : dictGet st.functions name = some (params, body))
    (ha : args.length ≠ params.length) :
    call_function fuel st name args =
      (st, some (Exc.valueError ("The number of parameters does not match: " ++ name))) := by
  simp [call_function, call_function_aux, hf, ha]

/-- Witness for C4: calling a nullary function with one argument. -/
theorem arity_mismatch_leaves_state_unchanged_witness :
    call_function 10 ⟨[("x", Value.int 1)], [("f", ([], ["var y = 2"]))], [], []⟩ "f" ["1"] =
      (⟨[("x", Value.int 1)], [("f", ([], ["var y = 2"]))], [], []⟩,
        some (Exc.valueError "The number of parameters does not match: f")) :=
  arity_mismatch_leaves_state_unchanged 10
    ⟨[("x", Value.int 1)], [("f", ([], ["var y = 2"]))], [], []⟩ "f" ["1"] [] ["var y = 2"]
    rfl (by decide)

/-! ## Claim C6 -/

/-- C6 counterexample: `var x = )` has an expression that fails to evaluate;
the claim says the declaration handler re-raises so the statement faults
rather than binding `x`.  In fact the evaluator reports the failure itself
and returns Python `None`, so the handler raises nothing and binds `x` to the
absent value. -/
theorem failed_eval_binds_absent_counterexample :
    handle_variable_declaration initState "var x = )" =
      ({ vars := [("x", Value.none)], functions := [], output := [],
         reports := [⟨-1, ")", Exc.evalError ")"⟩] }, Option.none) := rfl

/-- C6 amended: an expression whose text fails to evaluate after substitution
is reported by the evaluator, which yields the absent value in every context,
including the variable-declaration handler: a failing `var x = expr` binds
`x` to the absent value and raises nothing (the handler re-raises only its
own pattern-mismatch SyntaxError). -/
theorem eval_failure_yields_absent_value (st : InterpState) (line name expr : String)
    (hp : parseVarDecl line = some (name, expr))
    (he : pyEval (substitute_vars st.vars expr) = Option.none) :
    handle_variable_declaration st line =
      ({st with
          vars := dictSet st.vars name Value.none,
          reports := st.reports ++
            [⟨-1, substitute_vars st.vars expr, Exc.evalError (substitute_vars st.vars expr)⟩]},
        Option.none) := by
  simp [handle_variable_declaration, hp, evaluate_expression, he]

/-- Witness for the amended C6 at `var x = )` in the empty scope. -/
theorem eval_failure_yields_absent_value_witness :
    handle_variable_declaration initState "var x = )" =
      ({initState with
          vars := dictSet initState.vars "x" Value.none,
          reports := initState.reports ++
            [⟨-1, substitute_vars initState.vars ")",
               Exc.evalError (substitute_vars initState.vars ")")⟩]},
        Option.none) :=
  eval_failure_yields_absent_value initState "var x = )" "x" ")" rfl rfl

/-! ## Claim C7 -/

/-- C7 counterexample: both layers of doubled quotes are stripped.  On
`log(""hi"")` the code prints `hi`, while stripping exactly one layer of
surrounding quotes would print `"hi"`. -/
theorem log_strips_all_quote_layers :
    handle_log initState "log(\"\"hi\"\")" =
      { vars := [], functions := [], output := ["hi"], reports := [] }
    ∧ ("hi" : String) ≠ "\"hi\"" := by
  constructor
  · rfl
  · decide

/-- C7 amended: a well-formed `log(content)` prints the bound variable's value
when the trimmed content names one; otherwise it strips every leading and
trailing double-quote character, then every leading and trailing single-quote
character, and prints the resulting literal text. -/
theorem log_statement_output (st : InterpState) (line content : String)
    (hp : parseLog line = some content) :
    handle_log st line =
      match dictGet st.vars (strTrim content) with
      | some v => {st with output := st.output ++ [valueStr v]}
      | Option.none =>
        {st with output := st.output ++ [stripChar squote (stripChar dquote (strTrim content))]} := by
  simp [handle_log, hp]

/-- Witness for the amended C7: the variable branch and the literal branch at
concrete lines. -/
theorem log_statement_output_witness :
    handle_log ⟨[("x", Value.int 7)], [], [], []⟩ "log(x)" =
      { vars := [("x", Value.int 7)], functions := [], output := ["7"], reports := [] } :=
  (log_statement_output ⟨[("x", Value.int 7)], [], [], []⟩ "log(x)" "x" rfl).trans rfl

/-! ## Claim C5 -/

/-- C5: once the dispatch of a line faults, the dispatcher appends one
diagnostic (line index and stripped line text) and stops: the resulting state
is final, so no later line of the same sequence executes.  And a line that
matches none of the dispatch patterns faults with a SyntaxError carrying the
offending line. -/
theorem fault_aborts_remaining_sequence (fuel : Nat) (st : InterpState)
    (lines : List String) (i : Nat) (hi : i < lines.length) :
    (∀ st' e j, dispatch_line fuel st lines i = (st', some e, j) →
        process_lines (fuel + 1) st lines i =
          {st' with reports := st'.reports ++ [⟨(i : Int), strTrim (lines.getD i ""), e⟩]})
    ∧ (strTrim (lines.getD i "") ≠ "" →
        strStartsWith (strTrim (lines.getD i "")) "//" = false →
        strStartsWith (strTrim (lines.getD i "")) "var " = false →
        strStartsWith (strTrim (lines.getD i "")) "func " = false →
        strStartsWith (strTrim (lines.getD i "")) "log(" = false →
        hasCallPattern (strTrim (lines.getD i "")) = false →
        dispatch_line fuel st lines i =
          (st, some (Exc.syntaxError ("Unknown statement: " ++ strTrim (lines.getD i ""))),
            i + 1)) := by
  constructor
  · intro st' e j hd
    rw [process_lines_step fuel st lines i hi, hd]
  · intro hne h1 h2 h3 h4 h5
    simp only [dispatch_line, dispatch_line_aux]
    set line := strTrim (lines.getD i "") with hline
    simp [hne, h1, h2, h3, h4, h5]

/-- Witness for C5: the unmatched line `oops` raises the SyntaxError and the
dispatcher stops with that single report. -/
theorem fault_aborts_remaining_sequence_witness :
    process_lines 6 initState ["oops", "log(\"never\")"] 0 =
      {initState with reports := initState.reports ++
        [⟨(0 : Int), strTrim (["oops", "log(\"never\")"].getD 0 ""),
          Exc.syntaxError ("Unknown statement: " ++ strTrim (["oops", "log(\"never\")"].getD 0 ""))⟩]} := by
  have h := fault_aborts_remaining_sequence 5 initState ["oops", "log(\"never\")"] 0
    (by decide)
  exact h.1 initState
    (Exc.syntaxError ("Unknown statement: " ++ strTrim (["oops", "log(\"never\")"].getD 0 "")))
    1 (h.2 (by decide) (by decide) (by decide) (by decide) (by decide) (by decide))

/-! ## Claim C9 -/

/-- C9: after the full top-level scan, a registered function literally named
`main` is invoked automatically with zero arguments (after the banner print);
when no `main` is registered, the run ends with the scan's state unchanged —
in particular no fault is raised and no diagnostic is added. -/
theorem main_autocall_after_scan (fuel : Nat) (code : String) :
    (dictGet (process_lines fuel initState (splitLines code) 0).functions "main" = Option.none →
      execute fuel code = process_lines fuel initState (splitLines code) 0)
    ∧ (∀ pb,
        dictGet (process_lines fuel initState (splitLines code) 0).functions "main" = some pb →
        execute fuel code =
          (match call_function fuel
              {process_lines fuel initState (splitLines code) 0 with
                output := (process_lines fuel initState (splitLines code) 0).output ++
                  ["Locate the main function and start executing\n"]} "main" [] with
            | (st3, Option.none) => st3
            | (st3, some e) =>
              {st3 with reports := st3.reports ++ [⟨-1, "Exceptions to code execution", e⟩]})) := by
  constructor
  · intro h
    simp [execute, h]
  · intro pb h
    simp [execute, h]

/-- Witness for C9: a program without `main` executes to exactly the scan's
result. -/
theorem main_autocall_after_scan_witness :
    execute 10 "log(\"hi\")" = process_lines 10 initState (splitLines "log(\"hi\")") 0 :=
  (main_autocall_after_scan 10 "log(\"hi\")").1 rfl

/-! ## Prefix-shape helpers -/

/-- A successful list-prefix test exposes the tail. -/
theorem isPrefixOf_shape : ∀ (p s : List Char), p.isPrefixOf s = true → ∃ t, s = p ++ t := by
  intro p
  induction p with
  | nil => intro s _; exact ⟨s, rfl⟩
  | cons c cs ih =>
    intro s h
    cases s with
    | nil => simp [List.isPrefixOf] at h
    | cons b bs =>
      simp only [List.isPrefixOf, Bool.and_eq_true, beq_iff_eq] at h
      obtain ⟨t, ht⟩ := ih bs h.2
      exact ⟨t, by rw [h.1, ht]; rfl⟩

/-- A prefix test fails when the head characters differ. -/
theorem not_prefixOf_of_ne_head (a b : Char) (p t : List Char) (hne : (a = b) = False) :
    (a :: p).isPrefixOf (b :: t) = false := by
  simp [List.isPrefixOf, hne]

/-- A string whose character list is a cons is not empty. -/
theorem ne_empty_of_data_cons (s : String) (c : Char) (t : List Char)
    (h : s.data = c :: t) : s ≠ "" := by
  intro he
  rw [he] at h
  simp at h

/-! ## Claim C3 -/

/-- The spec's description of body extraction (§4.3), as a reference
definition: the counter starts at 1; a line containing an opening brace
increments it, a line containing a closing brace decrements it; the result is
the relative index of the line on which the counter reaches 0 (`none` when it
never does). -/
def spec_terminating_index : List String → Nat → Option Nat
  | [], _ => Option.none
  | l :: rest, c =>
    let c1 := if l.data.contains openBrace then c + 1 else c
    if l.data.contains closeBrace then
      if c1 - 1 = 0 then some 0
      else (spec_terminating_index rest (c1 - 1)).map (· + 1)
    else (spec_terminating_index rest c1).map (· + 1)

/-- The extraction loop agrees with the spec's counting description: when the
counter reaches 0 on relative line `k`, the stored body is exactly the
stripped lines strictly before line `k` — the terminating line is excluded —
and the returned index is the terminating line's absolute index. -/
theorem extract_body_spec : ∀ (ls : List String) (c i k : Nat),
    spec_terminating_index (ls.map strTrim) c = some k →
    extract_body ls i c = ((ls.take k).map strTrim, i + k) := by
  intro ls
  induction ls with
  | nil => intro c i k h; simp [spec_terminating_index] at h
  | cons l rest ih =>
    intro c i k h
    simp only [List.map_cons, spec_terminating_index] at h
    simp only [extract_body]
    by_cases hcb : (strTrim l).data.contains closeBrace = true
    · simp only [hcb, if_true] at h ⊢
      by_cases hz : (if (strTrim l).data.contains openBrace = true then c + 1 else c) - 1 = 0
      · simp only [hz, if_true] at h ⊢
        obtain rfl : (0 : Nat) = k := Option.some.inj h
        simp
      · simp only [hz, if_false] at h ⊢
        cases hrec : spec_terminating_index (rest.map strTrim)
            ((if (strTrim l).data.contains openBrace = true then c + 1 else c) - 1) with
        | none => rw [hrec] at h; simp at h
        | some k' =>
          rw [hrec] at h
          simp only [Option.map_some'] at h
          obtain rfl : k' + 1 = k := Option.some.inj h
          rw [ih _ (i + 1) k' hrec]
          simp only [List.take_succ_cons, List.map_cons, Prod.mk.injEq]
          exact ⟨by trivial, by omega⟩
    · simp only [hcb, Bool.false_eq_true, if_false] at h ⊢
      cases hrec : spec_terminating_index (rest.map strTrim)
          (if (strTrim l).data.contains openBrace = true then c + 1 else c) with
      | none => rw [hrec] at h; simp at h
      | some k' =>
        rw [hrec] at h
        simp only [Option.map_some'] at h
        obtain rfl : k' + 1 = k := Option.some.inj h
        rw [ih _ (i + 1) k' hrec]
        simp only [List.take_succ_cons, List.map_cons, Prod.mk.injEq]
        exact ⟨by trivial, by omega⟩

/-- C3: for a function definition whose braces balance (the spec's counter
reaches 0 at relative body line `k`), the handler registers exactly the
stripped lines strictly before the terminating line — the terminating line is
excluded — and returns the terminating line's index; and the outer scan
resumes exactly one line after the terminating line. -/
theorem function_body_brace_extraction (fuel : Nat) (st : InterpState)
    (lines : List String) (i k : Nat) (name ps : String)
    (hi : i < lines.length)
    (hfunc : strStartsWith (strTrim (lines.getD i "")) "func " = true)
    (hp : parseFuncDef (strTrim (lines.getD i "")) = some (name, ps))
    (hk : spec_terminating_index ((lines.drop (i + 1)).map strTrim) 1 = some k) :
    handle_function_definition st lines i =
      ({st with functions := dictSet st.functions name (split_args ps, ((lines.drop (i + 1)).take k).map strTrim)},
        Option.none, i + 1 + k)
    ∧ process_lines (fuel + 1) st lines i =
        process_lines fuel
          {st with functions := dictSet st.functions name (split_args ps, ((lines.drop (i + 1)).take k).map strTrim)}
          lines (i + 1 + k + 1) := by
  have hdef : handle_function_definition st lines i =
      ({st with functions := dictSet st.functions name (split_args ps, ((lines.drop (i + 1)).take k).map strTrim)},
        Option.none, i + 1 + k) := by
    simp only [handle_function_definition, hp]
    rw [extract_body_spec _ 1 (i + 1) k hk]
  refine ⟨hdef, ?_⟩
  obtain ⟨t, ht⟩ := isPrefixOf_shape _ _ hfunc
  rw [show ("func ".data) = ['f', 'u', 'n', 'c', ' '] from rfl] at ht
  simp only [List.cons_append] at ht
  have hne : strTrim (lines.getD i "") ≠ "" := ne_empty_of_data_cons _ _ _ ht
  have h1 : strStartsWith (strTrim (lines.getD i "")) "//" = false := by
    show ("//".data).isPrefixOf (strTrim (lines.getD i "")).data = false
    rw [show ("//".data) = ['/', '/'] from rfl, ht]
    exact not_prefixOf_of_ne_head _ _ _ _ (by simp)
  have h2 : strStartsWith (strTrim (lines.getD i "")) "var " = false := by
    show ("var ".data).isPrefixOf (strTrim (lines.getD i "")).data = false
    rw [show ("var ".data) = ['v', 'a', 'r', ' '] from rfl, ht]
    exact not_prefixOf_of_ne_head _ _ _ _ (by simp)
  rw [process_lines_step fuel st lines i hi]
  have hd : dispatch_line fuel st lines i =
      ({st with functions := dictSet st.functions name (split_args ps, ((lines.drop (i + 1)).take k).map strTrim)},
        Option.none, i + 1 + k + 1) := by
    simp only [dispatch_line, dispatch_line_aux]
    set line := strTrim (lines.getD i "") with hline
    simp [hne, h1, h2, hfunc, hdef]
  rw [hd]

/-- Witness for C3 on a two-line body block followed by a sibling line. -/
theorem function_body_brace_extraction_witness :
    handle_function_definition initState ["func h() \x7b", "log(\"a\")", "\x7d", "log(\"b\")"] 0 =
      ({initState with functions := dictSet initState.functions "h" (split_args "", (((["func h() \x7b", "log(\"a\")", "\x7d", "log(\"b\")"] : List String).drop 1).take 1).map strTrim)},
        Option.none, 2)
    ∧ process_lines 8 initState ["func h() \x7b", "log(\"a\")", "\x7d", "log(\"b\")"] 0 =
        process_lines 7
          {initState with functions := dictSet initState.functions "h" (split_args "", (((["func h() \x7b", "log(\"a\")", "\x7d", "log(\"b\")"] : List String).drop 1).take 1).map strTrim)}
          ["func h() \x7b", "log(\"a\")", "\x7d", "log(\"b\")"] 3 :=
  function_body_brace_extraction 7 initState
    ["func h() \x7b", "log(\"a\")", "\x7d", "log(\"b\")"] 0 1 "h" ""
    (by decide) (by decide) rfl rfl

/-! ## Claim C8 -/

/-- C8: a line that starts with `log(` but fails the log pattern makes the
handler print an inline grammar-error message without raising, and the
dispatcher moves on to the next line of the sequence instead of aborting. -/
theorem malformed_log_does_not_abort (fuel : Nat) (st : InterpState)
    (lines : List String) (i : Nat)
    (hi : i < lines.length)
    (hlog : strStartsWith (strTrim (lines.getD i "")) "log(" = true)
    (hbad : parseLog (strTrim (lines.getD i "")) = Option.none) :
    handle_log st (strTrim (lines.getD i "")) =
      {st with output := st.output ++ ["log() Grammatical errors: " ++ strTrim (lines.getD i "")]}
    ∧ process_lines (fuel + 1) st lines i =
        process_lines fuel (handle_log st (strTrim (lines.getD i ""))) lines (i + 1) := by
  have hlogeq : handle_log st (strTrim (lines.getD i "")) =
      {st with output := st.output ++ ["log() Grammatical errors: " ++ strTrim (lines.getD i "")]} := by
    simp only [handle_log, hbad]
  refine ⟨hlogeq, ?_⟩
  obtain ⟨t, ht⟩ := isPrefixOf_shape _ _ hlog
  rw [show ("log(".data) = ['l', 'o', 'g', '('] from rfl] at ht
  simp only [List.cons_append] at ht
  have hne : strTrim (lines.getD i "") ≠ "" := ne_empty_of_data_cons _ _ _ ht
  have h1 : strStartsWith (strTrim (lines.getD i "")) "//" = false := by
    show ("//".data).isPrefixOf (strTrim (lines.getD i "")).data = false
    rw [show ("//".data) = ['/', '/'] from rfl, ht]
    exact not_prefixOf_of_ne_head _ _ _ _ (by simp)
  have h2 : strStartsWith (strTrim (lines.getD i "")) "var " = false := by
    show ("var ".data).isPrefixOf (strTrim (lines.getD i "")).data = false
    rw [show ("var ".data) = ['v', 'a', 'r', ' '] from rfl, ht]
    exact not_prefixOf_of_ne_head _ _ _ _ (by simp)
  have h3 : strStartsWith (strTrim (lines.getD i "")) "func " = false := by
    show ("func ".data).isPrefixOf (strTrim (lines.getD i "")).data = false
    rw [show ("func ".data) = ['f', 'u', 'n', 'c', ' '] from rfl, ht]
    exact not_prefixOf_of_ne_head _ _ _ _ (by simp)
  rw [process_lines_step fuel st lines i hi]
  have hd : dispatch_line fuel st lines i =
      (handle_log st (strTrim (lines.getD i "")), Option.none, i + 1) := by
    simp only [dispatch_line, dispatch_line_aux]
    set line := strTrim (lines.getD i "") with hline
    simp [hne, h1, h2, h3, hlog]
  rw [hd]

/-- Witness for C8: the malformed `log()` prints the inline message and the
following line is still dispatched. -/
theorem malformed_log_does_not_abort_witness :
    handle_log initState (strTrim ((["log()", "log(\"ok\")"] : List String).getD 0 "")) =
      {initState with output := initState.output ++
        ["log() Grammatical errors: " ++ strTrim ((["log()", "log(\"ok\")"] : List String).getD 0 "")]}
    ∧ process_lines 6 initState ["log()", "log(\"ok\")"] 0 =
        process_lines 5
          (handle_log initState (strTrim ((["log()", "log(\"ok\")"] : List String).getD 0 "")))
          ["log()", "log(\"ok\")"] 1 :=
  malformed_log_does_not_abort 5 initState ["log()", "log(\"ok\")"] 0
    (by decide) (by decide) rfl

/-! ## Claim C10 -/

/-- Dict assignment preserves presence of every key. -/
theorem dictGet_dictSet_isSome {α : Type} (d : List (String × α)) (k n : String) (v : α)
    (h : (dictGet d n).isSome = true) : (dictGet (dictSet d k v) n).isSome = true := by
  induction d with
  | nil => simp [dictGet] at h
  | cons kv rest ih =>
    obtain ⟨k', v'⟩ := kv
    simp only [dictSet]
    by_cases hk : k' = k
    · simp only [hk, if_true]
      simp only [dictGet] at h ⊢
      by_cases hn : k = n
      · simp [hn]
      · rw [hk] at h
        simp [hn] at h ⊢
        exact h
    · simp only [hk, if_false]
      simp only [dictGet] at h ⊢
      by_cases hn : k' = n
      · simp [hn]
      · simp [hn] at h ⊢
        exact ih h

/-- The expression evaluator never touches the function table. -/
theorem evaluate_expression_functions (st : InterpState) (e : String) :
    (evaluate_expression st e).1.functions = st.functions := by
  cases h : pyEval (substitute_vars st.vars e) with
  | none => simp [evaluate_expression, h]
  | some v => simp [evaluate_expression, h]

/-- Parameter binding never touches the function table. -/
theorem bindParams_functions : ∀ (ps args : List String) (st : InterpState),
    (bindParams st ps args).functions = st.functions := by
  intro ps
  induction ps with
  | nil => intro args st; cases args <;> rfl
  | cons p pr ih =>
    intro args st
    cases args with
    | nil => rfl
    | cons a rest =>
      simp only [bindParams]
      rw [ih]
      exact evaluate_expression_functions st a

/-- The declaration handler never touches the function table. -/
theorem handle_variable_declaration_functions (st : InterpState) (line : String) :
    (handle_variable_declaration st line).1.functions = st.functions := by
  cases h : parseVarDecl line with
  | none => simp [handle_variable_declaration, h]
  | some nv =>
    obtain ⟨name, expr⟩ := nv
    simp only [handle_variable_declaration, h]
    exact evaluate_expression_functions st expr

/-- The log handler never touches the function table. -/
theorem handle_log_functions (st : InterpState) (line : String) :
    (handle_log st line).functions = st.functions := by
  cases h : parseLog line with
  | none => simp [handle_log, h]
  | some content =>
    simp only [handle_log, h]
    cases dictGet st.vars (strTrim content) <;> rfl

/-- The definition handler only ever adds or overwrites a table entry. -/
theorem handle_function_definition_mono (st : InterpState) (lines : List String)
    (start : Nat) (n : String)
    (h : (dictGet st.functions n).isSome = true) :
    (dictGet (handle_function_definition st lines start).1.functions n).isSome = true := by
  cases hp : parseFuncDef (strTrim (lines.getD start "")) with
  | none => simp only [handle_function_definition, hp]; exact h
  | some p =>
    obtain ⟨name, ps⟩ := p
    simp only [handle_function_definition, hp]
    exact dictGet_dictSet_isSome _ _ _ _ h

/-- `call_function_aux` preserves presence of every table key, given that the
body processor does. -/
theorem call_function_aux_mono (pl : InterpState → List String → Nat → InterpState)
    (hpl : ∀ st lines i n, (dictGet st.functions n).isSome = true →
      (dictGet (pl st lines i).functions n).isSome = true)
    (st : InterpState) (name : String) (args : List String) (n : String)
    (h : (dictGet st.functions n).isSome = true) :
    (dictGet (call_function_aux pl st name args).1.functions n).isSome = true := by
  cases hf : dictGet st.functions name with
  | none => simp only [call_function_aux, hf]; exact h
  | some pb =>
    obtain ⟨params, body⟩ := pb
    by_cases ha : args.length ≠ params.length
    · simp only [call_function_aux, hf]
      rw [if_pos ha]
      exact h
    · simp only [call_function_aux, hf]
      rw [if_neg ha]
      exact hpl _ _ _ _ (by rw [bindParams_functions]; exact h)

/-- `handle_function_call_aux` preserves presence of every table key. -/
theorem handle_function_call_aux_mono (pl : InterpState → List String → Nat → InterpState)
    (hpl : ∀ st lines i n, (dictGet st.functions n).isSome = true →
      (dictGet (pl st lines i).functions n).isSome = true)
    (st : InterpState) (line : String) (n : String)
    (h : (dictGet st.functions n).isSome = true) :
    (dictGet (handle_function_call_aux pl st line).1.functions n).isSome = true := by
  cases hp : parseCall line with
  | none => simp only [handle_function_call_aux, hp]; exact h
  | some p =>
    obtain ⟨name, argsStr⟩ := p
    simp only [handle_function_call_aux, hp]
    by_cases hex : (dictGet st.functions name).isSome = true
    · simp only [hex, if_true]
      exact call_function_aux_mono pl hpl st name (split_args argsStr) n h
    · simp only [hex, if_false]
      exact h

/-- One dispatch step preserves presence of every table key. -/
theorem dispatch_line_aux_mono (pl : InterpState → List String → Nat → InterpState)
    (hpl : ∀ st lines i n, (dictGet st.functions n).isSome = true →
      (dictGet (pl st lines i).functions n).isSome = true)
    (st : InterpState) (lines : List String) (i : Nat) (n : String)
    (h : (dictGet st.functions n).isSome = true) :
    (dictGet (dispatch_line_aux pl st lines i).1.functions n).isSome = true := by
  simp only [dispatch_line_aux]
  set line := strTrim (lines.getD i "") with hline
  by_cases c1 : line = "" ∨ strStartsWith line "//" = true
  · simp only [c1, if_true]; exact h
  · simp only [c1, Bool.false_eq_true, if_false]
    by_cases c2 : strStartsWith line "var " = true
    · simp only [c2, if_true]
      rw [handle_variable_declaration_functions]
      exact h
    · simp only [c2, Bool.false_eq_true, if_false]
      by_cases c3 : strStartsWith line "func " = true
      · simp only [c3, if_true]
        exact handle_function_definition_mono st lines i n h
      · simp only [c3, Bool.false_eq_true, if_false]
        by_cases c4 : strStartsWith line "log(" = true
        · simp only [c4, if_true]
          rw [handle_log_functions]
          exact h
        · simp only [c4, Bool.false_eq_true, if_false]
          by_cases c5 : hasCallPattern line = true
          · simp only [c5, if_true]
            exact handle_function_call_aux_mono pl hpl st line n h
          · simp only [c5, Bool.false_eq_true, if_false]
            exact h

/-- The dispatcher preserves presence of every function-table key: functions
are registered, possibly overwritten, but never removed. -/
theorem process_lines_functions_mono : ∀ (fuel : Nat) (st : InterpState)
    (lines : List String) (i : Nat) (n : String),
    (dictGet st.functions n).isSome = true →
    (dictGet (process_lines fuel st lines i).functions n).isSome = true := by
  intro fuel
  induction fuel with
  | zero => intro st lines i n h; exact h
  | succ f ih =>
    intro st lines i n h
    by_cases hi : i < lines.length
    · rw [process_lines_step f st lines i hi]
      have hst' := dispatch_line_aux_mono (fun st2 ls j => process_lines f st2 ls j)
        (fun st2 ls j n2 h2 => ih st2 ls j n2 h2) st lines i n h
      cases hd : dispatch_line f st lines i with
      | mk st' r =>
        obtain ⟨oe, j⟩ := r
        rw [show dispatch_line_aux (fun st2 ls j => process_lines f st2 ls j) st lines i
              = dispatch_line f st lines i from rfl, hd] at hst'
        cases oe with
        | none => exact ih st' lines j n hst'
        | some e => exact hst'
    · simp only [process_lines, hi, if_false]
      exact h

/-- C10: a call saves and restores only the variable scope, never the function
table.  The table after a dispatched call is exactly the table after running
the body, so a definition executed inside the body survives the return; and
every function registered before the call is still registered afterwards. -/
theorem call_preserves_function_table (fuel : Nat) (st : InterpState) (name : String)
    (args : List String) (params body : List String)
    (hf : dictGet st.functions name = some (params, body))
    (ha : args.length = params.length) :
    (call_function fuel st name args).1.functions =
      (process_lines fuel (bindParams st params args) body 0).functions
    ∧ ∀ n, (dictGet st.functions n).isSome = true →
        (dictGet (call_function fuel st name args).1.functions n).isSome = true := by
  constructor
  · simp [call_function, call_function_aux, hf, ha]
  · intro n h
    exact call_function_aux_mono (fun st2 ls j => process_lines fuel st2 ls j)
      (fun st2 ls j n2 h2 => process_lines_functions_mono fuel st2 ls j n2 h2)
      st name args n h

/-- Witness for C10: a call whose body defines `g`; after the call both the
pre-existing `m` and the newly defined `g` are present. -/
theorem call_preserves_function_table_witness :
    (call_function 9 ⟨[], [("m", ([], ["func g() \x7b", "\x7d"]))], [], []⟩ "m" []).1.functions =
      (process_lines 9 (bindParams ⟨[], [("m", ([], ["func g() \x7b", "\x7d"]))], [], []⟩ [] [])
        ["func g() \x7b", "\x7d"] 0).functions
    ∧ (dictGet (call_function 9 ⟨[], [("m", ([], ["func g() \x7b", "\x7d"]))], [], []⟩
        "m" []).1.functions "m").isSome = true :=
  ⟨(call_preserves_function_table 9 ⟨[], [("m", ([], ["func g() \x7b", "\x7d"]))], [], []⟩
      "m" [] [] ["func g() \x7b", "\x7d"] rfl rfl).1,
   (call_preserves_function_table 9 ⟨[], [("m", ([], ["func g() \x7b", "\x7d"]))], [], []⟩
      "m" [] [] ["func g() \x7b", "\x7d"] rfl rfl).2 "m" rfl⟩

end JvavSprict
